import Mathlib

/-!
Verification of `src/services/kernel_runner.py`: a long-lived kernel that
executes Python snippets against a single persistent context (a dict used as
the globals of `exec`), captures stdout/stderr per call via
`redirect_stdout`/`redirect_stderr`, and serves a JSON-line request/response
protocol on the standard streams.

The embedding models:
- the executed snippets as a small statement language covering the fragment of
  Python exercised by the spec (assignments of literals and names, `print` of a
  name or literal, `raise Kind('msg')`, `;`-separated statement sequences),
  with an executable parser standing for CPython `compile(code, "<string>",
  "exec")` on that fragment (any other text is a `SyntaxError`, and a
  non-string argument is a `TypeError`, as in CPython);
- the capture scope as an explicit routing state: while the scope is active the
  output targets point at the in-memory buffers, and writes are routed by the
  current target, so that preservation of the real streams is a theorem rather
  than a definition;
- the transport loop over a list of pre-decoded input lines (the result of
  `json.loads` per line: either a decode failure or a JSON value), producing an
  event trace of reads, response writes, flushes and diagnostic writes.
-/

namespace KernelRunner

/-- Values of the modelled Python fragment: integers and strings. -/
inductive PyVal where
  | int (n : Int)
  | str (s : String)
deriving DecidableEq

/-- Expressions of the fragment: a literal or a variable reference. -/
inductive Expr where
  | lit (v : PyVal)
  | var (name : String)
deriving DecidableEq

/-- Statements of the fragment: assignment, `print(e)`, and `raise Kind('msg')`. -/
inductive Stmt where
  | assign (name : String) (e : Expr)
  | printE (e : Expr)
  | raiseE (kind : String) (msg : String)
deriving DecidableEq

/-- A Python exception: its kind (class name) and message. -/
structure PyErr where
  kind : String
  msg : String
deriving DecidableEq

/-- The persistent context: the dict passed as globals to `exec`, a mutable
mapping from names to values. -/
def Ctx := List (String × PyVal)

instance : DecidableEq Ctx := by unfold Ctx; infer_instance

/-- Dict lookup `context[name]`. -/
def ctxGet (n : String) (c : Ctx) : Option PyVal := c.lookup n

/-- Dict update `context[name] = v`: rebinds an existing key in place, else
appends a new binding. -/
def ctxSet (n : String) (v : PyVal) : Ctx → Ctx
  | [] => [(n, v)]
  | (m, w) :: rest => if m = n then (n, v) :: rest else (m, w) :: ctxSet n v rest

/-- A JSON value, as produced by `json.loads` on one input line. -/
inductive JVal where
  | null
  | bool (b : Bool)
  | num (n : Int)
  | str (s : String)
  | arr (xs : List JVal)
  | obj (fields : List (String × JVal))

/-- Whether a JSON value is text (a Python `str`). -/
def JVal.isText : JVal → Bool
  | .str _ => true
  | _ => false

/-- Whether a JSON value is an object (a Python `dict`). -/
def JVal.isObj : JVal → Bool
  | .obj _ => true
  | _ => false

/-- The Python type name of a decoded JSON value, as it appears in the
`AttributeError` raised by `value.get(...)` on a non-dict. -/
def JVal.pyType : JVal → String
  | .null => "NoneType"
  | .bool _ => "bool"
  | .num _ => "int"
  | .str _ => "str"
  | .arr _ => "list"
  | .obj _ => "dict"

/-! ## The parser: CPython `compile` on the modelled fragment

The parser works on `List Char` with structural recursion throughout, so that
every parse of a concrete source text reduces inside the kernel. -/

/-- Whether a character may appear in an identifier. -/
def isIdentChar (c : Char) : Bool := c.isAlpha || c.isDigit || c = '_'

/-- Whether a character sequence is an identifier: nonempty, does not start
with a digit, all characters alphanumeric or underscore. -/
def isIdentChars (cs : List Char) : Bool :=
  match cs with
  | [] => false
  | c :: _ => !c.isDigit && cs.all isIdentChar

/-- Whether a character sequence is a single-quoted string literal. -/
def isQuotedChars (cs : List Char) : Bool :=
  match cs with
  | '\'' :: rest =>
    match rest with
    | [] => false
    | _ :: _ => rest.getLast? == some '\''
  | _ => false

/-- The contents of a single-quoted string literal. -/
def unquoteChars (cs : List Char) : List Char := (cs.drop 1).dropLast

/-- Split a character sequence at every occurrence of the given character. -/
def splitOnChar (c : Char) : List Char → List (List Char)
  | [] => [[]]
  | x :: xs =>
    match splitOnChar c xs with
    | [] => if x = c then [[], []] else [[x]]
    | y :: ys => if x = c then [] :: y :: ys else (x :: y) :: ys

/-- Remove leading and trailing whitespace. -/
def trimChars (cs : List Char) : List Char :=
  ((cs.dropWhile Char.isWhitespace).reverse.dropWhile Char.isWhitespace).reverse

/-- Strip an expected literal head from a character sequence, returning the
remainder if the head matches. -/
def stripHead : List Char → List Char → Option (List Char)
  | [], cs => some cs
  | _ :: _, [] => none
  | p :: ps, c :: cs => if c = p then stripHead ps cs else none

/-- Read a nonempty digit sequence as a natural number. -/
def digitsToNat? (cs : List Char) : Option Nat :=
  match cs with
  | [] => none
  | _ :: _ =>
    cs.foldl
      (fun acc c =>
        acc.bind fun a => if c.isDigit then some (a * 10 + (c.toNat - 48)) else none)
      (some 0)

/-- Read an optionally negated digit sequence as an integer literal. -/
def charsToInt? (cs : List Char) : Option Int :=
  match cs with
  | '-' :: rest => (digitsToNat? rest).map fun n => -(n : Int)
  | _ => (digitsToNat? cs).map fun n => (n : Int)

/-- Parse one expression: an identifier, a single-quoted string literal, or an
integer literal. -/
def parseExprChars (cs : List Char) : Option Expr :=
  if isIdentChars cs then some (.var (String.mk cs))
  else if isQuotedChars cs then some (.lit (.str (String.mk (unquoteChars cs))))
  else (charsToInt? cs).map fun n => .lit (.int n)

/-- Parse one statement of the fragment: `print(e)`, `raise Kind('msg')`, or
`name = e`. Anything else is a syntax error. -/
def parseStmtChars (cs : List Char) : Option Stmt :=
  match stripHead ("print(".toList) cs with
  | some inner =>
    if inner.getLast? == some ')' then (parseExprChars inner.dropLast).map .printE
    else none
  | none =>
    match stripHead ("raise ".toList) cs with
    | some rest =>
      match splitOnChar '(' rest with
      | [k, r] =>
        if isIdentChars k && r.getLast? == some ')' && isQuotedChars r.dropLast then
          some (.raiseE (String.mk k) (String.mk (unquoteChars r.dropLast)))
        else none
      | _ => none
    | none =>
      match splitOnChar '=' cs with
      | [l, r] =>
        if isIdentChars (trimChars l) then
          (parseExprChars (trimChars r)).map (.assign (String.mk (trimChars l)))
        else none
      | _ => none

/-- Split a source text into trimmed `;`-separated statement pieces; one
trailing empty piece (a trailing `;`, or the empty program) is allowed. -/
def splitPieces (s : String) : List (List Char) :=
  let ps := (splitOnChar ';' s.toList).map trimChars
  if ps.getLast? = some [] then ps.dropLast else ps

/-- Parse a full source text as a statement sequence; `none` is a
compilation (syntax) failure. -/
def parseProgram (s : String) : Option (List Stmt) :=
  (splitPieces s).mapM parseStmtChars

/-- Model of CPython `compile(code, "<string>", "exec")` as called by
`execute_code`: a non-string argument raises `TypeError`; a string that is not
a well-formed program of the fragment raises `SyntaxError`. -/
def compile (code : JVal) : Except PyErr (List Stmt) :=
  match code with
  | .str s =>
    match parseProgram s with
    | some p => .ok p
    | none => .error ⟨"SyntaxError", "invalid syntax"⟩
  | _ => .error ⟨"TypeError", "compile() arg 1 must be a string, bytes or AST object"⟩

/-! ## The capture subsystem: `redirect_stdout` / `redirect_stderr` -/

/-- The stream-routing state while a call is in flight: the contents of the
real stdout/stderr, the two per-call `StringIO` buffers, and where each output
target currently points (`true` while the redirect scope is active). -/
structure CapState where
  realOut : String
  realErr : String
  bufOut : String
  bufErr : String
  outToBuf : Bool
  errToBuf : Bool
deriving DecidableEq

/-- A write to `sys.stdout`, routed by the current redirect target. -/
def writeOut (s : String) (st : CapState) : CapState :=
  if st.outToBuf then { st with bufOut := st.bufOut ++ s }
  else { st with realOut := st.realOut ++ s }

/-- The capture state on entry to the redirect scope: fresh empty buffers,
both targets pointing at the buffers, the real streams as given. -/
def initCap (real : String × String) : CapState :=
  ⟨real.1, real.2, "", "", true, true⟩

/-! ## The execution engine -/

/-- Evaluate an expression against the context; an unbound name raises
`NameError`, as in Python. -/
def evalExpr (e : Expr) (ctx : Ctx) : Except PyErr PyVal :=
  match e with
  | .lit v => .ok v
  | .var n =>
    match ctxGet n ctx with
    | some v => .ok v
    | none => .error ⟨"NameError", "name '" ++ n ++ "' is not defined"⟩

/-- `str(v)` as used by `print`. -/
def pyStr : PyVal → String
  | .int n => toString n
  | .str s => s

/-- The state after running (a prefix of) a compiled program: the context, the
stream state, and the pending exception if execution stopped early. -/
structure ExecState where
  ctx : Ctx
  cap : CapState
  exc : Option PyErr
deriving DecidableEq

/-- Model of `exec(compiled_code, context)` for the fragment: statements run in
order, mutating the context and writing through the routed streams, until done
or an exception is raised; mutations and output made before a failure are
kept. -/
def execStmts : List Stmt → Ctx → CapState → ExecState
  | [], ctx, st => ⟨ctx, st, none⟩
  | s :: rest, ctx, st =>
    match s with
    | .assign n e =>
      match evalExpr e ctx with
      | .ok v => execStmts rest (ctxSet n v ctx) st
      | .error err => ⟨ctx, st, some err⟩
    | .printE e =>
      match evalExpr e ctx with
      | .ok v => execStmts rest ctx (writeOut (pyStr v ++ "\n") st)
      | .error err => ⟨ctx, st, some err⟩
    | .raiseE k m => ⟨ctx, st, some ⟨k, m⟩⟩

/-- Model of `traceback.format_exc()`: the textual diagnostic (kind, message,
frames) of the caught exception. -/
def formatExc (e : PyErr) : String :=
  "Traceback (most recent call last):\n  File \"<string>\", line 1, in <module>\n"
    ++ e.kind ++ ": " ++ e.msg ++ "\n"

/-- The response dict returned by `execute_code` and encoded as one output
line. -/
structure Response where
  stdout : String
  stderr : String
  error : Option String
deriving DecidableEq

/-- What one call to `execute_code` produces: the response, the context after
the call (the same dict, mutated in place), and the contents of the real
streams after the redirect scope has exited. -/
structure ExecOut where
  resp : Response
  ctx : Ctx
  real : String × String
deriving DecidableEq

/-- `execute_code(code, context)` from `kernel_runner.py`, with the ambient
real streams made explicit: create two fresh buffers, enter the redirect
scope, compile then exec inside it, catch any exception into
`traceback.format_exc()`, and return the buffer contents together with the
restored real streams. The `except Exception:` clause is rendered here as
catching every raised kind; that is exact whenever the raised exception class
derives from `Exception` (`SyntaxError`, `TypeError`, `NameError`,
`ValueError`, ...). For kinds deriving only from `BaseException`, which the
clause does not catch, see `execute_code_full`, which refines this definition
and agrees with it on every caught path (`execute_code_full_ok`). -/
def execute_code (code : JVal) (context : Ctx) (real : String × String) : ExecOut :=
  let st0 := initCap real
  match compile code with
  | .error e =>
    ⟨⟨st0.bufOut, st0.bufErr, some (formatExc e)⟩, context, (st0.realOut, st0.realErr)⟩
  | .ok prog =>
    let r := execStmts prog context st0
    ⟨⟨r.cap.bufOut, r.cap.bufErr, r.exc.map formatExc⟩, r.ctx, (r.cap.realOut, r.cap.realErr)⟩

/-! ## The transport loop -/

/-- One input line after `json.loads`: either the decode failed
(`json.JSONDecodeError`) or it produced a JSON value. -/
inductive InLine where
  | malformed
  | decoded (v : JVal)

/-- One observable step of the loop: reading a line, writing one encoded
response line, flushing stdout, or writing a diagnostic to stderr. -/
inductive Event where
  | readLine (l : InLine)
  | writeResp (r : Response)
  | flush
  | writeDiag (s : String)

/-- How the loop ended: end-of-stream; the fatal `except Exception` branch
(diagnostic written, then break); or killed by an exception that escapes both
of `main`'s handlers and terminates the interpreter (see `mainLoopFull`). -/
inductive ExitKind where
  | eof
  | fatal
  | killed
deriving DecidableEq

/-- The outcome of running the loop: the event trace in order, the final
context, the final real streams, and how the loop ended. -/
structure LoopOut where
  events : List Event
  ctx : Ctx
  real : String × String
  exit : ExitKind

/-- `request.get("code", "")`: the value of the `code` field (for duplicate
keys `json.loads` keeps the last), defaulting to the empty string. -/
def getCode (fields : List (String × JVal)) : JVal :=
  match fields.reverse.lookup "code" with
  | some v => v
  | none => .str ""

/-- The `while True` loop of `main`: read a line (end-of-stream breaks the
loop cleanly), decode it (a decode failure is skipped via `continue`), take
`request.get("code", "")` (a non-dict value raises `AttributeError`, caught by
the fatal branch which writes a diagnostic and breaks), execute against the
shared context, and write and flush one response line. Like `execute_code`,
this renders every exception of the executed code as caught; `mainLoopFull`
refines it with system-exiting propagation modelled. -/
def mainLoop : List InLine → Ctx → (String × String) → LoopOut
  | [], ctx, real => ⟨[], ctx, real, .eof⟩
  | .malformed :: rest, ctx, real =>
    let o := mainLoop rest ctx real
    ⟨.readLine .malformed :: o.events, o.ctx, o.real, o.exit⟩
  | .decoded (.obj fields) :: rest, ctx, real =>
    let e := execute_code (getCode fields) ctx real
    let o := mainLoop rest e.ctx e.real
    ⟨.readLine (.decoded (.obj fields)) :: .writeResp e.resp :: .flush :: o.events,
      o.ctx, o.real, o.exit⟩
  | .decoded v :: _, ctx, real =>
    ⟨[.readLine (.decoded v),
      .writeDiag ("Fatal Kernel Error: '" ++ v.pyType ++ "' object has no attribute 'get'\n")],
      ctx, real, .fatal⟩

/-- `main()`: run the loop from the empty persistent context. -/
def main (input : List InLine) : LoopOut := mainLoop input [] ("", "")

/-! ## The exception hierarchy: what `except Exception:` actually catches -/

/-- The response lines in the trace, in emission order. -/
def responsesOf (evs : List Event) : List Response :=
  evs.filterMap fun e =>
    match e with
    | .writeResp r => some r
    | _ => none

/-- The diagnostic writes in the trace. -/
def diagsOf (evs : List Event) : List String :=
  evs.filterMap fun e =>
    match e with
    | .writeDiag s => some s
    | _ => none

/-- The number of input lines the loop read. -/
def readsOf (evs : List Event) : Nat :=
  (evs.filter fun e =>
    match e with
    | .readLine _ => true
    | _ => false).length

/-- Whether an input line cannot hit the fatal branch: a decode failure, or a
decoded object. -/
def wellFormed : InLine → Bool
  | .malformed => true
  | .decoded v => v.isObj

/-- A request line carrying the given `code` value. -/
def reqLine (c : JVal) : InLine := .decoded (.obj [("code", c)])

theorem writeOut_fields (s : String) (st : CapState) (ho : st.outToBuf = true) :
    (writeOut s st).realOut = st.realOut ∧ (writeOut s st).realErr = st.realErr ∧
    (writeOut s st).outToBuf = st.outToBuf ∧ (writeOut s st).errToBuf = st.errToBuf := by
  simp [writeOut, ho]

/-- While both redirect targets point at the buffers, running a program never
touches the real streams and never changes the targets. -/
theorem execStmts_preserves_real (stmts : List Stmt) (ctx : Ctx) (st : CapState)
    (ho : st.outToBuf = true) (he : st.errToBuf = true) :
    (execStmts stmts ctx st).cap.realOut = st.realOut ∧
    (execStmts stmts ctx st).cap.realErr = st.realErr ∧
    (execStmts stmts ctx st).cap.outToBuf = true ∧
    (execStmts stmts ctx st).cap.errToBuf = true := by
  induction stmts generalizing ctx st with
  | nil => exact ⟨rfl, rfl, ho, he⟩
  | cons s rest ih =>
    cases s with
    | assign n e =>
      cases h : evalExpr e ctx with
      | ok v => simpa [execStmts, h] using ih (ctxSet n v ctx) st ho he
      | error err => simp [execStmts, h, ho, he]
    | printE e =>
      cases h : evalExpr e ctx with
      | ok v =>
        have hw := writeOut_fields (pyStr v ++ "\n") st ho
        have := ih ctx (writeOut (pyStr v ++ "\n") st)
          (hw.2.2.1.trans ho) (hw.2.2.2.trans he)
        simpa [execStmts, h, hw.1, hw.2.1] using this
      | error err => simp [execStmts, h, ho, he]
    | raiseE k m => simp [execStmts, ho, he]

/-- Executing the empty source text is a no-op: empty output, no error, the
context and the real streams untouched. -/
theorem execute_code_empty (ctx : Ctx) (real : String × String) :
    execute_code (.str "") ctx real = ⟨⟨"", "", none⟩, ctx, real⟩ := rfl

/-- A syntax failure produces empty captures, the syntax diagnostic, and an
untouched context and real streams. -/
theorem execute_code_syntax_err (s : String) (ctx : Ctx) (real : String × String)
    (h : parseProgram s = none) :
    execute_code (.str s) ctx real =
      ⟨⟨"", "", some (formatExc ⟨"SyntaxError", "invalid syntax"⟩)⟩, ctx, real⟩ := by
  simp [execute_code, compile, h, initCap]

/-- A decoded non-object line hits the fatal branch: one diagnostic write, no
response, loop over. -/
theorem mainLoop_fatal (v : JVal) (hv : v.isObj = false) (rest : List InLine)
    (ctx : Ctx) (real : String × String) :
    mainLoop (.decoded v :: rest) ctx real =
      ⟨[.readLine (.decoded v),
        .writeDiag ("Fatal Kernel Error: '" ++ v.pyType ++ "' object has no attribute 'get'\n")],
        ctx, real, .fatal⟩ := by
  cases v with
  | obj fields => simp [JVal.isObj] at hv
  | null => rfl
  | bool b => rfl
  | num n => rfl
  | str s => rfl
  | arr xs => rfl

/-- Claim C1: names defined or rebound by one request persist into the next —
the loop hands the context returned by the first call (success or failure
alike) to the second call unchanged, and concretely the request `x = 1`
followed by `print(x)` yields a second response with stdout `"1\n"`, empty
stderr, and no error. -/
theorem c1_context_persistence :
    (∀ c1 c2 ctx real,
      (mainLoop [reqLine c1, reqLine c2] ctx real).events =
        [.readLine (reqLine c1), .writeResp (execute_code c1 ctx real).resp, .flush,
         .readLine (reqLine c2),
         .writeResp
           (execute_code c2 (execute_code c1 ctx real).ctx
             (execute_code c1 ctx real).real).resp,
         .flush]) ∧
    responsesOf (main [reqLine (.str "x = 1"), reqLine (.str "print(x)")]).events =
      [⟨"", "", none⟩, ⟨"1\n", "", none⟩] := by
  constructor
  · intro c1 c2 ctx real
    rfl
  · decide

/-- Claim C4, counterexample: the input line `5` decodes to a value that is not
a request object, yet the loop does not skip it silently — no response is
emitted, but a diagnostic IS written to the error stream and the process
terminates through the fatal branch instead of continuing. -/
theorem c4_counterexample :
    (JVal.num 5).isObj = false ∧
    responsesOf (mainLoop [.decoded (.num 5)] [] ("", "")).events = [] ∧
    diagsOf (mainLoop [.decoded (.num 5)] [] ("", "")).events =
      ["Fatal Kernel Error: 'int' object has no attribute 'get'\n"] ∧
    (mainLoop [.decoded (.num 5)] [] ("", "")).exit = .fatal := by
  refine ⟨rfl, by decide, by decide, rfl⟩

/-- Claim C4, amended: a line that raises a decode error is skipped silently —
no response, no diagnostic, the loop continues with everything unchanged; a
line that decodes to a non-object value instead hits the fatal handler, which
writes a diagnostic to the error stream and terminates the loop. -/
theorem c4_amended_malformed_skip :
    (∀ rest ctx real,
      mainLoop (.malformed :: rest) ctx real =
        ⟨.readLine .malformed :: (mainLoop rest ctx real).events,
          (mainLoop rest ctx real).ctx, (mainLoop rest ctx real).real,
          (mainLoop rest ctx real).exit⟩) ∧
    (∀ v rest ctx real, wellFormed (.decoded v) = false →
      mainLoop (.decoded v :: rest) ctx real =
        ⟨[.readLine (.decoded v),
          .writeDiag ("Fatal Kernel Error: '" ++ v.pyType ++ "' object has no attribute 'get'\n")],
          ctx, real, .fatal⟩) := by
  refine ⟨fun rest ctx real => rfl, fun v rest ctx real h => ?_⟩
  cases v with
  | obj fields => simp [wellFormed, JVal.isObj] at h
  | null => rfl
  | bool b => rfl
  | num n => rfl
  | str s => rfl
  | arr xs => rfl

/-- Witness for the amended C4 at concrete inputs: a malformed line before a
request is skipped with the loop continuing, and the decoded line `true` is
fatal with a diagnostic. -/
theorem c4_amended_malformed_skip_witness :
    mainLoop [InLine.malformed] [] ("", "") =
      ⟨[.readLine .malformed], [], ("", ""), .eof⟩ ∧
    mainLoop [.decoded (.bool true)] [] ("", "") =
      ⟨[.readLine (.decoded (.bool true)),
        .writeDiag "Fatal Kernel Error: 'bool' object has no attribute 'get'\n"],
        [], ("", ""), .fatal⟩ := by
  constructor
  · exact (c4_amended_malformed_skip.1 [] [] ("", ""))
  · exact (c4_amended_malformed_skip.2 (.bool true) [] [] ("", "")) (by decide)

/-- Claim C5: a compilation failure yields empty stdout and stderr, a non-null
syntax diagnostic, and leaves the context untouched, so a subsequent valid
request still executes successfully; concretely `def f(:` fails with a
SyntaxError diagnostic and the follow-up requests `x = 1` and `print(x)`
succeed. -/
theorem c5_syntax_failure_isolation :
    (∀ s ctx real, parseProgram s = none →
      execute_code (.str s) ctx real =
        ⟨⟨"", "", some (formatExc ⟨"SyntaxError", "invalid syntax"⟩)⟩, ctx, real⟩) ∧
    (parseProgram "def f(:" = none ∧
      (∃ pre post, (execute_code (.str "def f(:") [] ("", "")).resp.error =
        some (pre ++ "SyntaxError" ++ post)) ∧
      responsesOf
          (main [reqLine (.str "def f(:"), reqLine (.str "x = 1"),
            reqLine (.str "print(x)")]).events =
        [⟨"", "", some (formatExc ⟨"SyntaxError", "invalid syntax"⟩)⟩,
         ⟨"", "", none⟩, ⟨"1\n", "", none⟩]) := by
  refine ⟨fun s ctx real h => execute_code_syntax_err s ctx real h, by decide,
    ⟨"Traceback (most recent call last):\n  File \"<string>\", line 1, in <module>\n",
     ": invalid syntax\n", by decide⟩, by decide⟩

/-- Witness for C5 at the concrete syntactically invalid request `def f(:`. -/
theorem c5_syntax_failure_isolation_witness :
    execute_code (.str "def f(:") [] ("", "") =
      ⟨⟨"", "", some (formatExc ⟨"SyntaxError", "invalid syntax"⟩)⟩, [], ("", "")⟩ :=
  c5_syntax_failure_isolation.1 "def f(:" [] ("", "") (by decide)

/-- Claim C6: empty or absent code is a no-op — the response has empty stdout
and stderr and no error, and the context is not mutated; a request object with
no `code` field behaves exactly the same way. -/
theorem c6_empty_code_noop :
    (∀ ctx real, execute_code (.str "") ctx real = ⟨⟨"", "", none⟩, ctx, real⟩) ∧
    (∀ fields ctx real, fields.reverse.lookup "code" = none →
      mainLoop [.decoded (.obj fields)] ctx real =
        ⟨[.readLine (.decoded (.obj fields)), .writeResp ⟨"", "", none⟩, .flush],
          ctx, real, .eof⟩) := by
  refine ⟨fun ctx real => execute_code_empty ctx real, fun fields ctx real h => ?_⟩
  have hg : getCode fields = .str "" := by simp [getCode, h]
  show mainLoop [.decoded (.obj fields)] ctx real = _
  simp [mainLoop, hg, execute_code_empty]

/-- Witness for C6 at a concrete request object with no `code` field. -/
theorem c6_empty_code_noop_witness :
    mainLoop [.decoded (.obj [("other", .num 3)])] [] ("", "") =
      ⟨[.readLine (.decoded (.obj [("other", .num 3)])), .writeResp ⟨"", "", none⟩, .flush],
        [], ("", ""), .eof⟩ :=
  c6_empty_code_noop.2 [("other", .num 3)] [] ("", "") rfl

/-- Claim C10: a request whose `code` field is present but not text does not
terminate the process — compilation raises a `TypeError` that `execute_code`
catches, the response has a non-null error and empty stdout/stderr, the
context is untouched, and the loop proceeds to the remaining requests. -/
theorem c10_nontext_code :
    ∀ v ctx real rest, v.isText = false →
      (execute_code v ctx real =
        ⟨⟨"", "",
          some (formatExc ⟨"TypeError", "compile() arg 1 must be a string, bytes or AST object"⟩)⟩,
          ctx, real⟩) ∧
      (∀ fields, fields.reverse.lookup "code" = some v →
        mainLoop (.decoded (.obj fields) :: rest) ctx real =
          ⟨.readLine (.decoded (.obj fields)) ::
            .writeResp
              ⟨"", "",
                some (formatExc ⟨"TypeError", "compile() arg 1 must be a string, bytes or AST object"⟩)⟩ ::
            .flush :: (mainLoop rest ctx real).events,
            (mainLoop rest ctx real).ctx, (mainLoop rest ctx real).real,
            (mainLoop rest ctx real).exit⟩) := by
  intro v ctx real rest hv
  have hexec : execute_code v ctx real =
      ⟨⟨"", "",
        some (formatExc ⟨"TypeError", "compile() arg 1 must be a string, bytes or AST object"⟩)⟩,
        ctx, real⟩ := by
    cases v with
    | str s => simp [JVal.isText] at hv
    | null => rfl
    | bool b => rfl
    | num n => rfl
    | arr xs => rfl
    | obj fs => rfl
  refine ⟨hexec, fun fields hf => ?_⟩
  have hg : getCode fields = v := by simp [getCode, hf]
  show mainLoop (.decoded (.obj fields) :: rest) ctx real = _
  simp [mainLoop, hg, hexec]

/-- Witness for C10 at the concrete request whose `code` field is the number
`5`, followed by one further request that is still answered. -/
theorem c10_nontext_code_witness :
    execute_code (.num 5) [] ("", "") =
      ⟨⟨"", "",
        some (formatExc ⟨"TypeError", "compile() arg 1 must be a string, bytes or AST object"⟩)⟩,
        [], ("", "")⟩ ∧
    mainLoop [.decoded (.obj [("code", .num 5)]), reqLine (.str "x = 1")] [] ("", "") =
      ⟨.readLine (.decoded (.obj [("code", .num 5)])) ::
        .writeResp
          ⟨"", "",
            some (formatExc ⟨"TypeError", "compile() arg 1 must be a string, bytes or AST object"⟩)⟩ ::
        .flush :: (mainLoop [reqLine (.str "x = 1")] [] ("", "")).events,
        (mainLoop [reqLine (.str "x = 1")] [] ("", "")).ctx,
        (mainLoop [reqLine (.str "x = 1")] [] ("", "")).real,
        (mainLoop [reqLine (.str "x = 1")] [] ("", "")).exit⟩ := by
  constructor
  · exact (c10_nontext_code (.num 5) [] ("", "") [] (by decide)).1
  · exact (c10_nontext_code (.num 5) [] ("", "") [reqLine (.str "x = 1")] (by decide)).2
      [("code", .num 5)] rfl

/-- Claim C3: when execution fails partway, everything written before the
failure point is kept — appending a raising statement to a successful program
leaves its context mutations and captured output intact and only adds the
exception — and concretely `print('a'); raise ValueError('boom')` yields
stdout `"a\n"` with an error containing `"boom"`. -/
theorem c3_partial_output_preserved :
    (∀ stmts k m ctx st, (execStmts stmts ctx st).exc = none →
      execStmts (stmts ++ [Stmt.raiseE k m]) ctx st =
        ⟨(execStmts stmts ctx st).ctx, (execStmts stmts ctx st).cap, some ⟨k, m⟩⟩) ∧
    ((execute_code (.str "print('a'); raise ValueError('boom')") [] ("", "")).resp.stdout
        = "a\n" ∧
      ∃ pre post,
        (execute_code (.str "print('a'); raise ValueError('boom')") [] ("", "")).resp.error =
          some (pre ++ "boom" ++ post)) := by
  constructor
  · intro stmts k m
    induction stmts with
    | nil => intro ctx st _; rfl
    | cons s rest ih =>
      intro ctx st h
      cases s with
      | assign n e =>
        cases he : evalExpr e ctx with
        | ok v =>
          simp only [List.cons_append, execStmts, he] at h ⊢
          exact ih (ctxSet n v ctx) st h
        | error err => simp [execStmts, he] at h
      | printE e =>
        cases he : evalExpr e ctx with
        | ok v =>
          simp only [List.cons_append, execStmts, he] at h ⊢
          exact ih ctx (writeOut (pyStr v ++ "\n") st) h
        | error err => simp [execStmts, he] at h
      | raiseE k2 m2 => simp [execStmts] at h
  · refine ⟨by decide,
      ⟨"Traceback (most recent call last):\n  File \"<string>\", line 1, in <module>\nValueError: ",
       "\n", by decide⟩⟩

/-- Witness for C3: the partial-output lemma applied to the concrete
one-statement prefix `print('a')` before the raise. -/
theorem c3_partial_output_preserved_witness :
    execStmts ([Stmt.printE (.lit (.str "a"))] ++ [Stmt.raiseE "ValueError" "boom"])
        [] (initCap ("", "")) =
      ⟨(execStmts [Stmt.printE (.lit (.str "a"))] [] (initCap ("", ""))).ctx,
       (execStmts [Stmt.printE (.lit (.str "a"))] [] (initCap ("", ""))).cap,
       some ⟨"ValueError", "boom"⟩⟩ :=
  c3_partial_output_preserved.1 [Stmt.printE (.lit (.str "a"))] "ValueError" "boom"
    [] (initCap ("", "")) (by decide)

/-- Claim C7: the redirect scope is transparent to the real streams on every
exit path — after any call the real stdout/stderr are exactly what they were
before, so output emitted by the executed code never reaches them — and the
response's error field is null exactly when both compilation and execution
finished without an exception. -/
theorem c7_capture_restoration :
    ∀ code ctx real,
      (execute_code code ctx real).real = real ∧
      ((execute_code code ctx real).resp.error = none ↔
        ∃ p, compile code = .ok p ∧ (execStmts p ctx (initCap real)).exc = none) := by
  intro code ctx real
  cases hc : compile code with
  | error e =>
    constructor
    · simp [execute_code, hc, initCap]
    · simp [execute_code, hc]
  | ok p =>
    have h := execStmts_preserves_real p ctx (initCap real) rfl rfl
    constructor
    · have hr : (execute_code code ctx real).real =
          ((execStmts p ctx (initCap real)).cap.realOut,
           (execStmts p ctx (initCap real)).cap.realErr) := by
        simp [execute_code, hc]
      rw [hr, h.1, h.2.1]
      rfl
    · have hf : (execute_code code ctx real).resp.error =
          (execStmts p ctx (initCap real)).exc.map formatExc := by
        simp [execute_code, hc]
      rw [hf]
      constructor
      · intro hnone
        refine ⟨p, rfl, ?_⟩
        cases hx : (execStmts p ctx (initCap real)).exc with
        | none => rfl
        | some e => rw [hx] at hnone; simp at hnone
      · rintro ⟨q, hq, hqe⟩
        injection hq with h'
        subst h'
        rw [hqe]
        rfl

/-- Witness for C7 at a raising request executed against nonempty real
streams, and at the plain assignment `x = 1`. -/
theorem c7_capture_restoration_witness :
    (execute_code (.str "print('a'); raise ValueError('boom')") [("y", .int 2)]
      ("keep", "also")).real = ("keep", "also") ∧
    ((execute_code (.str "x = 1") [] ("", "")).resp.error = none ↔
      ∃ p, compile (.str "x = 1") = .ok p ∧
        (execStmts p [] (initCap ("", ""))).exc = none) :=
  ⟨(c7_capture_restoration (.str "print('a'); raise ValueError('boom')")
      [("y", .int 2)] ("keep", "also")).1,
   (c7_capture_restoration (.str "x = 1") [] ("", "")).2⟩

/-- The body of claim C9 at a fatal head line: the loop ends fatally, with a
diagnostic, and the end-of-stream characterisation still holds. -/
theorem c9_fatal_case (v : JVal) (hv : v.isObj = false) (rest : List InLine)
    (ctx : Ctx) (real : String × String) :
    ((mainLoop (.decoded v :: rest) ctx real).exit = .eof ∨
      (mainLoop (.decoded v :: rest) ctx real).exit = .fatal) ∧
    ((mainLoop (.decoded v :: rest) ctx real).exit = .eof ↔
      ∀ l ∈ .decoded v :: rest, wellFormed l = true) ∧
    ((mainLoop (.decoded v :: rest) ctx real).exit = .eof →
      diagsOf (mainLoop (.decoded v :: rest) ctx real).events = [] ∧
      readsOf (mainLoop (.decoded v :: rest) ctx real).events =
        (InLine.decoded v :: rest).length) ∧
    ((mainLoop (.decoded v :: rest) ctx real).exit = .fatal →
      diagsOf (mainLoop (.decoded v :: rest) ctx real).events ≠ []) := by
  rw [mainLoop_fatal v hv]
  refine ⟨Or.inr rfl, ⟨fun h => ExitKind.noConfusion h, fun h => ?_⟩,
    fun h => ExitKind.noConfusion h, fun _ => ?_⟩
  · have hw := h (.decoded v) (List.mem_cons_self _ _)
    simp only [wellFormed] at hw
    rw [hv] at hw
    exact Bool.noConfusion hw
  · intro hd
    exact List.noConfusion hd

/-- Claim C9: the loop ends either at end-of-stream or fatally; it ends at
end-of-stream exactly when no line triggers the fatal branch, and in that case
the whole input was read and no diagnostic was written, while a fatal end
always comes with a diagnostic write. -/
theorem c9_eof_clean_termination :
    ∀ lines ctx real,
      ((mainLoop lines ctx real).exit = .eof ∨ (mainLoop lines ctx real).exit = .fatal) ∧
      ((mainLoop lines ctx real).exit = .eof ↔ ∀ l ∈ lines, wellFormed l = true) ∧
      ((mainLoop lines ctx real).exit = .eof →
        diagsOf (mainLoop lines ctx real).events = [] ∧
        readsOf (mainLoop lines ctx real).events = lines.length) ∧
      ((mainLoop lines ctx real).exit = .fatal →
        diagsOf (mainLoop lines ctx real).events ≠ []) := by
  intro lines
  induction lines with
  | nil =>
    intro ctx real
    exact ⟨Or.inl rfl, ⟨fun _ => by simp, fun _ => rfl⟩, fun _ => ⟨rfl, rfl⟩,
      fun h => ExitKind.noConfusion h⟩
  | cons l rest ih =>
    intro ctx real
    cases l with
    | malformed =>
      have hi := ih ctx real
      refine ⟨hi.1, ?_, fun he => ?_, fun hf => hi.2.2.2 hf⟩
      · rw [List.forall_mem_cons]
        exact ⟨fun he => ⟨rfl, hi.2.1.mp he⟩, fun hp => hi.2.1.mpr hp.2⟩
      · exact ⟨(hi.2.2.1 he).1, congrArg (· + 1) (hi.2.2.1 he).2⟩
    | decoded v =>
      cases v with
      | obj fields =>
        have hi := ih (execute_code (getCode fields) ctx real).ctx
          (execute_code (getCode fields) ctx real).real
        refine ⟨hi.1, ?_, fun he => ?_, fun hf => hi.2.2.2 hf⟩
        · rw [List.forall_mem_cons]
          exact ⟨fun he => ⟨rfl, hi.2.1.mp he⟩, fun hp => hi.2.1.mpr hp.2⟩
        · exact ⟨(hi.2.2.1 he).1, congrArg (· + 1) (hi.2.2.1 he).2⟩
      | null => exact c9_fatal_case .null rfl rest ctx real
      | bool b => exact c9_fatal_case (.bool b) rfl rest ctx real
      | num n => exact c9_fatal_case (.num n) rfl rest ctx real
      | str s => exact c9_fatal_case (.str s) rfl rest ctx real
      | arr xs => exact c9_fatal_case (.arr xs) rfl rest ctx real

/-- Witness for C9 at a concrete well-formed two-line input: clean
end-of-stream, no diagnostic, both lines read. -/
theorem c9_eof_clean_termination_witness :
    (mainLoop [reqLine (.str "x = 1"), .malformed] [] ("", "")).exit = .eof ∧
    diagsOf (mainLoop [reqLine (.str "x = 1"), .malformed] [] ("", "")).events = [] ∧
    readsOf (mainLoop [reqLine (.str "x = 1"), .malformed] [] ("", "")).events = 2 := by
  have h := c9_eof_clean_termination [reqLine (.str "x = 1"), .malformed] [] ("", "")
  have he : (mainLoop [reqLine (.str "x = 1"), .malformed] [] ("", "")).exit = .eof :=
    h.2.1.mpr (by decide)
  exact ⟨he, (h.2.2.1 he).1, (h.2.2.1 he).2⟩

end KernelRunner
